import Mathlib

/-!
A shallow embedding of the `gitvck` version checker.

The main variant (`gitvck/gitvck.py`, class `VersionCheck`) is embedded as a
pure state-passing program: external collaborators (installed-package
metadata, the `git ls-remote` subprocess, the PyPI HTTP endpoint) are an
explicit environment of responses, side effects (I/O and console output) are
an explicit effect trace, and Python exceptions are an `Except` layer.
The legacy single-repository variant (`gitvck.py` at the repository root) is
embedded separately where the claims need it.

Python strings are modelled as `List Char` so that every operation is
structural recursion and evaluates by `decide`.
-/

namespace Gitvck

/-- Python strings, modelled as lists of characters. -/
abbrev Str := List Char

/-- Coerce a Lean string literal to the model's string type. -/
def str (s : String) : Str := s.data

/-- The apostrophe character (used in several of the source's messages). -/
def sq : Char := Char.ofNat 39

/-- The newline character. -/
def nl : Char := Char.ofNat 10

/-- Python's `str.split(c)`: split on every occurrence of `c`, keeping empty
fields (so the result always has at least one element). -/
def splitOnChar (c : Char) : Str → List Str
  | [] => [[]]
  | x :: xs =>
    let r := splitOnChar c xs
    if x = c then [] :: r
    else
      match r with
      | [] => [[x]]
      | h :: t => (x :: h) :: t

/-- Parse a non-empty all-digit string as a natural number (the numeric
fields of the version grammar). -/
def digitsToNat (s : Str) : Option Nat :=
  if s.isEmpty then none
  else if s.all Char.isDigit then
    some (s.foldl (fun a c => a * 10 + (c.toNat - 48)) 0)
  else none

/-- ASCII lower-casing of one character (Python's `str.lower` restricted to
ASCII, which is all the source compares against). -/
def lowerChar (c : Char) : Char :=
  if 65 ≤ c.toNat ∧ c.toNat ≤ 90 then Char.ofNat (c.toNat + 32) else c

/-- Python's `str.lower()` on the model's strings. -/
def lowerStr (s : Str) : Str := s.map lowerChar

/-- Python's `str.strip()`: remove leading and trailing whitespace. -/
def strip (s : Str) : Str :=
  ((s.dropWhile Char.isWhitespace).reverse.dropWhile Char.isWhitespace).reverse

/-! ### The version grammar

Modelled from the spec: the version-parsing and ordering collaborator
(`packaging.version`) is an external library, not part of this repository.
The spec gives the grammar `[N!]N(.N)*[(a|b|rc)N][.postN][.devN]` and the
ordering: epoch first, then release segments numerically, with development
releases before pre-releases before the release, and post-releases after. -/

/-- A parsed public version identifier: epoch, release segments, optional
pre-release (phase rank `a < b < rc` and number), optional post-release
number, optional development-release number. -/
structure PepVersion where
  epoch : Nat
  release : List Nat
  pre : Option (Nat × Nat)
  post : Option Nat
  dev : Option Nat
deriving DecidableEq

/-- Parse the final release segment, which may carry a pre-release suffix:
`3`, `3a1`, `3b2`, `3rc4`. -/
def parseFinalReleaseSeg (s : Str) : Option (Nat × Option (Nat × Nat)) :=
  let digits := s.takeWhile Char.isDigit
  let rest := s.drop digits.length
  match digitsToNat digits with
  | none => none
  | some n =>
    if rest.isEmpty then some (n, none)
    else if (str "rc").isPrefixOf rest then
      (digitsToNat (rest.drop 2)).map (fun k => (n, some (2, k)))
    else if (str "a").isPrefixOf rest then
      (digitsToNat (rest.drop 1)).map (fun k => (n, some (0, k)))
    else if (str "b").isPrefixOf rest then
      (digitsToNat (rest.drop 1)).map (fun k => (n, some (1, k)))
    else none

/-- Modelled from the spec: parse a version string under the grammar
`[epoch!]release[pre][.postN][.devN]`; `none` models the collaborator's
invalid-version failure. -/
def pep440Parse (s : Str) : Option PepVersion := do
  let (epoch, rest) ←
    match splitOnChar (Char.ofNat 33) s with
    | [r] => some (0, r)
    | [e, r] => (digitsToNat e).map (fun n => (n, r))
    | _ => none
  let segs := splitOnChar (Char.ofNat 46) rest
  let (dev, segs1) :=
    match segs.getLast? with
    | some t =>
      match (if (str "dev").isPrefixOf t then digitsToNat (t.drop 3) else none) with
      | some n => (some n, segs.dropLast)
      | none => (none, segs)
    | none => (none, segs)
  let (post, segs2) :=
    match segs1.getLast? with
    | some t =>
      match (if (str "post").isPrefixOf t then digitsToNat (t.drop 4) else none) with
      | some n => (some n, segs1.dropLast)
      | none => (none, segs1)
    | none => (none, segs1)
  match segs2.getLast? with
  | none => none
  | some lastSeg => do
    let (relLast, pre) ← parseFinalReleaseSeg lastSeg
    let relInit ← segs2.dropLast.mapM digitsToNat
    pure ⟨epoch, relInit ++ [relLast], pre, post, dev⟩

/-- Release segments compare with trailing zeros removed. -/
def normRelease (l : List Nat) : List Nat :=
  (l.reverse.dropWhile (fun n => n = 0)).reverse

/-- Strict lexicographic order on lists of naturals. -/
def lexLt : List Nat → List Nat → Bool
  | [], [] => false
  | [], _ :: _ => true
  | _ :: _, [] => false
  | a :: as, b :: bs => a < b || (a = b && lexLt as bs)

/-- Strict lexicographic order on pairs of naturals. -/
def pairLt (a b : Nat × Nat) : Bool :=
  a.1 < b.1 || (a.1 = b.1 && a.2 < b.2)

/-- Strict lexicographic order on triples of naturals. -/
def tripleLt (a b : Nat × Nat × Nat) : Bool :=
  a.1 < b.1 || (a.1 = b.1 && pairLt a.2 b.2)

/-- Pre-release ordering key: a bare development release sorts below every
pre-release (rank 0), a pre-release carries its phase and number (rank 1),
and a release without pre-release sorts above all pre-releases (rank 2). -/
def preKey (v : PepVersion) : Nat × Nat × Nat :=
  match v.pre with
  | some (ph, n) => (1, ph, n)
  | none => if v.post.isNone ∧ v.dev.isSome then (0, 0, 0) else (2, 0, 0)

/-- Post-release ordering key: absent sorts below present. -/
def postKey (v : PepVersion) : Nat × Nat :=
  match v.post with
  | none => (0, 0)
  | some n => (1, n)

/-- Development-release ordering key: present sorts below absent. -/
def devKey (v : PepVersion) : Nat × Nat :=
  match v.dev with
  | none => (1, 0)
  | some n => (0, n)

/-- Modelled from the spec: the version grammar's strict total ordering. -/
def pepLt (a b : PepVersion) : Bool :=
  if a.epoch ≠ b.epoch then a.epoch < b.epoch
  else
    let ra := normRelease a.release
    let rb := normRelease b.release
    if ra ≠ rb then lexLt ra rb
    else if preKey a ≠ preKey b then tripleLt (preKey a) (preKey b)
    else if postKey a ≠ postKey b then pairLt (postKey a) (postKey b)
    else if devKey a ≠ devKey b then pairLt (devKey a) (devKey b)
    else false

/-- A version string is valid when the grammar accepts it. -/
def pep440Valid (s : Str) : Bool := (pep440Parse s).isSome

/-! ### The collaborators' environment -/

/-- Result of the `git ls-remote` subprocess (`proc.communicate()` plus
`proc.returncode`). -/
structure GitResult where
  returncode : Int
  stdout : Str
  stderr : Str
deriving DecidableEq

/-- Result of `requests.get` on the registry endpoint: either the request
raises (network error or timeout), or a response arrives with a status code
and, when the body is parsed, the `info.version` field (`none` models a body
whose JSON parsing or key lookup raises). -/
inductive PypiResult where
  | netError : PypiResult
  | response (status : Nat) (infoVersion : Option Str) : PypiResult
deriving DecidableEq

/-- The external world as the checker observes it: installed-package
metadata (`importlib.metadata.version`, `none` models
`PackageNotFoundError`), the tag-listing subprocess keyed by path, and the
registry endpoint keyed by project name. -/
structure Env where
  metadataVersion : Str → Option Str
  git : Str → GitResult
  pypi : Str → PypiResult

/-- Python exceptions that can cross the embedded functions' boundaries. -/
inductive Exc where
  | runtimeError (msg : Str) : Exc
  | typeError : Exc
  | requestError : Exc
  | jsonError : Exc
  | invalidVersionError : Exc
  | indexError : Exc
deriving DecidableEq

/-- One observable side effect: an I/O interaction with a collaborator, a
warning printed through `ui.print_warning`, or a traceback printed by the
top-level handler. -/
inductive Effect where
  | metadataLookup (name : Str) : Effect
  | gitCall (path : Str) : Effect
  | httpGet (name : Str) : Effect
  | printWarning (msg : Str) : Effect
  | printTrace (e : Exc) : Effect
deriving DecidableEq

/-- Whether an effect is an I/O interaction (as opposed to console output). -/
def Effect.isIO : Effect → Bool
  | .metadataLookup _ => true
  | .gitCall _ => true
  | .httpGet _ => true
  | .printWarning _ => false
  | .printTrace _ => false

/-- Whether an effect is console output (a printed message). -/
def Effect.isMessage : Effect → Bool
  | .printWarning _ => true
  | .printTrace _ => true
  | _ => false

/-- The console output contained in an effect trace. -/
def printedMessages (tr : List Effect) : List Effect :=
  tr.filter Effect.isMessage

/-! ### The `VersionCheck` class (`gitvck/gitvck.py`) -/

/-- The instance attributes set by `VersionCheck.__init__`. -/
structure State where
  name : Str
  src : Str
  path : Option Str
  vers : Option Str
  extvers : Option Str
deriving DecidableEq

/-- The class attribute `_SOURCES`. -/
def SOURCES : List Str := [str "git", str "pypi"]

/-- Message of the `RuntimeError` for an invalid source argument. -/
def invalidSourceMsg (src : Str) : Str :=
  str "Invalid source argument provided: " ++ [sq] ++ src ++ [sq]

/-- Message of the `RuntimeError` for a missing path argument. -/
def pathRequiredMsg : Str :=
  str "A path argument must be provided for a " ++ [sq] ++ str "git" ++ [sq] ++ str " source."

/-- The warning printed when the named project is not installed. -/
def notInstalledMsg (name : Str) : Str :=
  [nl] ++ str "[ERROR]: The " ++ [sq] ++ name ++ [sq]
    ++ str " project is not installed. Cannot collect version information."

/-- The warning printed when no external version could be resolved. -/
def extNotFoundMsg (name : Str) : Str :=
  [nl] ++ str "[ERROR]: The external version for " ++ [sq] ++ name ++ [sq]
    ++ str " could not be found."

/-- The warning printed for an invalid version string. -/
def invalidVersionMsg (v : Str) : Str :=
  [nl] ++ str "[ERROR]: The following version number is invalid: " ++ [sq] ++ v ++ [sq]

/-- The warning printed when the tag-listing subprocess fails. -/
def gitErrorMsg (stderr : Str) : Str :=
  [nl] ++ str "Git error:" ++ [nl] ++ stderr

/-- The "later version is available" notification. -/
def newVersionMsg (name v ev : Str) : Str :=
  [nl] ++ str "Note: A later version of " ++ name ++ str " is available." ++ [nl]
    ++ str "- Installed version: " ++ v ++ [nl]
    ++ str "- Repo version: " ++ ev ++ [nl]

/-- Constructor `VersionCheck.__init__`: store the arguments (the source lower-cased),
performing no I/O — the effect trace of construction is returned alongside
the constructed state. -/
def mkVersionCheck (name source : Str) (path vers : Option Str) : List Effect × State :=
  ([], ⟨name, lowerStr source, path, vers, none⟩)

/-- Method `_verify_args`: raise `RuntimeError` for an unrecognized
source, or for a `git` source without a path; otherwise return `True`. -/
def verifyArgs (st : State) : Except Exc Bool :=
  if ¬ SOURCES.contains st.src then
    Except.error (Exc.runtimeError (invalidSourceMsg st.src))
  else if st.src = str "git" ∧ st.path = none then
    Except.error (Exc.runtimeError pathRequiredMsg)
  else
    Except.ok true

/-- Method `_version_is_valid`: parse the version, returning `True`
on success and printing the invalid-version warning on failure. -/
def versionIsValid (version : Str) : List Effect × Bool :=
  match pep440Parse version with
  | some _ => ([], true)
  | none => ([Effect.printWarning (invalidVersionMsg version)], false)

/-- Method `_get_version_internal`: keep an explicitly supplied
version; otherwise look the project up in the installed-package metadata,
storing the found version when it is valid, and printing the not-installed
warning when the lookup fails. Returns whether `_vers` is now populated. -/
def getVersionInternal (st : State) (env : Env) : List Effect × State × Bool :=
  match st.vers with
  | some _ => ([], st, true)
  | none =>
    match env.metadataVersion st.name with
    | none =>
      ([Effect.metadataLookup st.name, Effect.printWarning (notInstalledMsg st.name)],
       st, false)
    | some v =>
      if (versionIsValid v).2 then
        (Effect.metadataLookup st.name :: (versionIsValid v).1,
         ⟨st.name, st.src, st.path, some v, st.extvers⟩, true)
      else
        (Effect.metadataLookup st.name :: (versionIsValid v).1, st, false)

/-- The non-empty lines of the tag-listing output
(`list(filter(None, data.decode().split(chr(10))))`). -/
def gitLines (data : Str) : List Str :=
  (splitOnChar nl data).filter (fun l => ¬ l.isEmpty)

/-- The final path segment of a line (`line.split(chr(47))[-1]`). -/
def lastPathSegment (line : Str) : Str :=
  (splitOnChar (Char.ofNat 47) line).reverse.headD []

/-- Method `_parse_git_output`: drop empty lines; on non-empty output
store the final path segment of the last line into `_extvers`. -/
def parseGitOutput (st : State) (data : Str) : State :=
  match (gitLines data).getLast? with
  | none => st
  | some latest => ⟨st.name, st.src, st.path, st.vers, some (lastPathSegment latest)⟩

/-- Method `_get_version_from_git`: run `git ls-remote` on the path;
parse its output on success, print the Git-error warning on failure. -/
def getVersionFromGit (st : State) (env : Env) (path : Str) : List Effect × State :=
  if (env.git path).returncode = 0 then
    ([Effect.gitCall path], parseGitOutput st (env.git path).stdout)
  else
    ([Effect.gitCall path, Effect.printWarning (gitErrorMsg (env.git path).stderr)], st)

/-- Method `_get_version_from_pypi`: GET the registry's JSON endpoint;
on a 200 response store `info.version`; a non-200 response leaves `_extvers`
unchanged; a network failure or an unparsable body raises. -/
def getVersionFromPypi (st : State) (env : Env) : List Effect × Except Exc State :=
  match env.pypi st.name with
  | PypiResult.netError => ([Effect.httpGet st.name], Except.error Exc.requestError)
  | PypiResult.response status info =>
    if status = 200 then
      match info with
      | none => ([Effect.httpGet st.name], Except.error Exc.jsonError)
      | some v =>
        ([Effect.httpGet st.name],
         Except.ok ⟨st.name, st.src, st.path, st.vers, some v⟩)
    else
      ([Effect.httpGet st.name], Except.ok st)

/-- The tail of `VersionCheck._get_version_external`: an exception from the
dispatched collection method propagates; otherwise report and fail when
`_extvers` is still unpopulated, and succeed when it is populated. -/
def checkResolved (eff : List Effect) (res : Except Exc State) :
    List Effect × Except Exc (State × Bool) :=
  match res with
  | Except.error ex => (eff, Except.error ex)
  | Except.ok st1 =>
    match st1.extvers with
    | none =>
      (eff ++ [Effect.printWarning (extNotFoundMsg st1.name)], Except.ok (st1, false))
    | some _ => (eff, Except.ok (st1, true))

/-- Method `_get_version_external`: dispatch on the source kind, then
report and fail when `_extvers` is still unpopulated. Passing a `git`
source without a path into the subprocess would raise `TypeError` (this is
unreachable from `test`, whose argument check runs first). -/
def getVersionExternal (st : State) (env : Env) : List Effect × Except Exc (State × Bool) :=
  if st.src = str "git" then
    match st.path with
    | some p =>
      checkResolved (getVersionFromGit st env p).1 (Except.ok (getVersionFromGit st env p).2)
    | none => checkResolved [] (Except.error Exc.typeError)
  else if st.src = str "pypi" then
    checkResolved (getVersionFromPypi st env).1 (getVersionFromPypi st env).2
  else checkResolved [] (Except.ok st)

/-- Method `_version_is_valid` applied to an attribute that is typed
`Optional[str]`: passing `None` into the parser raises `TypeError`. -/
def versionIsValidOpt : Option Str → List Effect × Except Exc Bool
  | none => ([], Except.error Exc.typeError)
  | some v => ((versionIsValid v).1, Except.ok (versionIsValid v).2)

/-- Method `_verify_version_numbers`: validate both `_vers` and
`_extvers` (the argument tuple of `all` is built eagerly, so the second is
checked even when the first fails) and return the conjunction. -/
def verifyVersionNumbers (st : State) : List Effect × Except Exc Bool :=
  match versionIsValidOpt st.vers with
  | (e1, Except.error ex) => (e1, Except.error ex)
  | (e1, Except.ok b1) =>
    match versionIsValidOpt st.extvers with
    | (e2, Except.error ex) => (e1 ++ e2, Except.error ex)
    | (e2, Except.ok b2) => (e1 ++ e2, Except.ok (b1 && b2))

/-- Method `_compare`: parse both versions; when the internal one is
strictly smaller print the new-version notification and return `False`,
otherwise return `True`. Unparsable input raises (unreachable from `test`,
which validates first). -/
def compareVersions (st : State) : List Effect × Except Exc Bool :=
  match st.vers, st.extvers with
  | some v, some ev =>
    (match pep440Parse v with
     | none => ([], Except.error Exc.invalidVersionError)
     | some a =>
       match pep440Parse ev with
       | none => ([], Except.error Exc.invalidVersionError)
       | some b =>
         if pepLt a b then
           ([Effect.printWarning (newVersionMsg st.name v ev)], Except.ok false)
         else ([], Except.ok true))
  | _, _ => ([], Except.error Exc.typeError)

/-- Method `test`: the guarded pipeline `_verify_args` →
`_get_version_internal` → `_get_version_external` →
`_verify_version_numbers` → `_compare`, wrapped in a handler that prints a
traceback for any exception and returns the success flag as it stood when
the exception was raised (`s` is `False` only until the first step
succeeds). -/
def test (st : State) (env : Env) : List Effect × State × Bool :=
  match verifyArgs st with
  | Except.error ex => ([Effect.printTrace ex], st, false)
  | Except.ok _ =>
    match getVersionInternal st env with
    | (e1, st1, s1) =>
      if s1 then
        match getVersionExternal st1 env with
        | (e2, Except.error ex) => (e1 ++ e2 ++ [Effect.printTrace ex], st1, s1)
        | (e2, Except.ok (st2, s2)) =>
          if s2 then
            match verifyVersionNumbers st2 with
            | (e3, Except.error ex) => (e1 ++ e2 ++ e3 ++ [Effect.printTrace ex], st2, s2)
            | (e3, Except.ok s3) =>
              if s3 then
                match compareVersions st2 with
                | (e4, Except.error ex) =>
                  (e1 ++ e2 ++ e3 ++ e4 ++ [Effect.printTrace ex], st2, s3)
                | (e4, Except.ok s4) => (e1 ++ e2 ++ e3 ++ e4, st2, s4)
              else (e1 ++ e2 ++ e3, st2, false)
          else (e1 ++ e2, st2, false)
      else (e1, st1, false)

/-! ### The legacy single-repository variant (`gitvck.py`) -/

/-- The legacy variant's external world: whether `os.path.exists(REPO)`
holds, and the result of `git describe --tags` run in the repository. -/
structure LegacyEnv where
  repoExists : Bool
  describe : GitResult

/-- Model of `re.findall('^v(.*)$', s)[0]` on the stripped subprocess output: the
anchored pattern matches only when the string starts with `v` and the
remainder contains no newline, and the match strips the leading `v`;
otherwise indexing the empty match list raises `IndexError`. -/
def legacyFindallHead (s : Str) : Except Exc Str :=
  if (str "v").isPrefixOf s ∧ ¬ (s.drop 1).contains nl then
    Except.ok (s.drop 1)
  else Except.error Exc.indexError

/-- The legacy `VersionCheck._git_version`: start from the empty string;
when the repository path exists, run `git describe --tags` and, on success,
take the regex match of the stripped output (stripping the leading `v`). -/
def legacyGitVersion (env : LegacyEnv) : List Effect × Except Exc Str :=
  if env.repoExists then
    if env.describe.returncode = 0 then
      match legacyFindallHead (strip env.describe.stdout) with
      | Except.ok v => ([Effect.gitCall (str "describe")], Except.ok v)
      | Except.error ex => ([Effect.gitCall (str "describe")], Except.error ex)
    else ([Effect.gitCall (str "describe")], Except.ok [])
  else ([], Except.ok [])

/-- The legacy `VersionCheck.__init__`: store the supplied version and
resolve the repository version immediately — construction already performs
the filesystem check and, when the path exists, the subprocess call. -/
def legacyMkVersionCheck (v : Str) (env : LegacyEnv) :
    List Effect × Except Exc (Str × Str) :=
  match legacyGitVersion env with
  | (eff, Except.error ex) => (eff, Except.error ex)
  | (eff, Except.ok g) => (eff, Except.ok (v, g))

/-! ### Concrete runs used by the witnesses -/

/-- Whether an effect is an interaction with the version-control or registry
collaborator (the external-version sources). -/
def Effect.isExternalIO : Effect → Bool
  | .gitCall _ => true
  | .httpGet _ => true
  | _ => false

/-- Concrete input for the comparison claim: an explicit internal version
`1.0` checked against a registry that serves `2.0`. -/
def stC1 : State := ⟨str "proj", str "pypi", none, some (str "1.0"), none⟩

/-- The state after resolution in the comparison claim's concrete run. -/
def stC1ext : State := ⟨str "proj", str "pypi", none, some (str "1.0"), some (str "2.0")⟩

/-- A registry environment that serves version `2.0` for every project. -/
def envC1 : Env :=
  ⟨fun _ => none, fun _ => ⟨1, [], []⟩, fun _ => PypiResult.response 200 (some (str "2.0"))⟩

/-- A state whose version is unset, for the resolution-failure runs. -/
def stNoVers : State := ⟨str "proj", str "pypi", none, none, none⟩

/-- Two-line tag-listing output for the parsing witness. -/
def dataC4 : Str := str "aa refs/tags/v1.2.3\nbb refs/tags/v1.3.0\n"

/-- A registry environment in which every request raises a network error. -/
def envNetErr : Env := ⟨fun _ => none, fun _ => ⟨1, [], []⟩, fun _ => PypiResult.netError⟩

/-- A registry environment answering 404 with no parsable body. -/
def env404 : Env :=
  ⟨fun _ => none, fun _ => ⟨1, [], []⟩, fun _ => PypiResult.response 404 none⟩

/-- A registry environment answering 200 with an unparsable body. -/
def envJson : Env :=
  ⟨fun _ => none, fun _ => ⟨1, [], []⟩, fun _ => PypiResult.response 200 none⟩

/-- Concrete input for the validation claim: explicit invalid version
`1.abc.1`, registry serving the invalid candidate `x`. -/
def stC5 : State := ⟨str "proj", str "pypi", none, some (str "1.abc.1"), none⟩

/-- The state after resolution in the validation claim's concrete run. -/
def stC5ext : State := ⟨str "proj", str "pypi", none, some (str "1.abc.1"), some (str "x")⟩

/-- A registry environment serving the non-version string `x`. -/
def envC5 : Env :=
  ⟨fun _ => none, fun _ => ⟨1, [], []⟩, fun _ => PypiResult.response 200 (some (str "x"))⟩

end Gitvck

namespace Gitvck

/-! ### Helper lemmas -/

/-- The effect trace of the legacy variant records the subprocess call when
the repository path exists. -/
theorem legacyGitVersion_calls_git (env : LegacyEnv) (h : env.repoExists = true) :
    (legacyGitVersion env).1 = [Effect.gitCall (str "describe")] := by
  unfold legacyGitVersion
  rw [if_pos h]
  split
  · split <;> rfl
  · rfl

/-- Applying `checkResolved` to a non-raising resolution hands back the resolved
state itself. -/
theorem checkResolved_ok_state (eff : List Effect) (st1 : State) (e : List Effect)
    (st2 : State) (b : Bool)
    (h : checkResolved eff (Except.ok st1) = (e, Except.ok (st2, b))) : st2 = st1 := by
  simp only [checkResolved] at h
  split at h <;> simp_all

/-- Parsing the tag-listing output only ever writes `_extvers`. -/
theorem parseGitOutput_preserves (st : State) (d : Str) :
    (parseGitOutput st d).name = st.name ∧ (parseGitOutput st d).src = st.src ∧
      (parseGitOutput st d).path = st.path ∧ (parseGitOutput st d).vers = st.vers := by
  unfold parseGitOutput
  split <;> simp

/-- The tag-based collection method only ever writes `_extvers`. -/
theorem getVersionFromGit_preserves (st : State) (env : Env) (p : Str) :
    ((getVersionFromGit st env p).2).name = st.name ∧
      ((getVersionFromGit st env p).2).src = st.src ∧
      ((getVersionFromGit st env p).2).path = st.path ∧
      ((getVersionFromGit st env p).2).vers = st.vers := by
  unfold getVersionFromGit
  split
  · exact parseGitOutput_preserves st (env.git p).stdout
  · simp

/-- The registry collection method only ever writes `_extvers`. -/
theorem getVersionFromPypi_preserves (st : State) (env : Env) (st1 : State)
    (h : (getVersionFromPypi st env).2 = Except.ok st1) :
    st1.name = st.name ∧ st1.src = st.src ∧ st1.path = st.path ∧ st1.vers = st.vers := by
  unfold getVersionFromPypi at h
  repeat' split at h
  all_goals dsimp only at h
  all_goals try injection h with h
  all_goals try subst h
  all_goals simp_all

/-- External-version resolution only ever writes the `_extvers` attribute:
the name, source, path and internal version survive it unchanged. -/
theorem getVersionExternal_preserves (st : State) (env : Env) (e : List Effect)
    (st2 : State) (b : Bool)
    (h : getVersionExternal st env = (e, Except.ok (st2, b))) :
    st2.name = st.name ∧ st2.src = st.src ∧ st2.path = st.path ∧ st2.vers = st.vers := by
  unfold getVersionExternal at h
  split at h
  · split at h
    · have h2 := checkResolved_ok_state _ _ _ _ _ h
      subst h2
      exact getVersionFromGit_preserves st env _
    · simp only [checkResolved] at h
      simp at h
  · split at h
    · rcases hr : (getVersionFromPypi st env).2 with ex | st1
      · rw [hr] at h
        simp only [checkResolved] at h
        simp at h
      · rw [hr] at h
        have h2 := checkResolved_ok_state _ _ _ _ _ h
        subst h2
        exact getVersionFromPypi_preserves st env _ hr
    · have h2 := checkResolved_ok_state _ _ _ _ _ h
      subst h2
      exact ⟨rfl, rfl, rfl, rfl⟩

end Gitvck

namespace Gitvck

/-- A string the grammar accepts validates silently. -/
theorem versionIsValid_of_parse (v : Str) (a : PepVersion) (h : pep440Parse v = some a) :
    versionIsValid v = ([], true) := by
  unfold versionIsValid
  rw [h]

/-- A string the grammar rejects is reported and fails validation. -/
theorem versionIsValid_of_invalid (v : Str) (h : pep440Parse v = none) :
    versionIsValid v = ([Effect.printWarning (invalidVersionMsg v)], false) := by
  unfold versionIsValid
  rw [h]

/-- C1: when the argument check passes, the internal version is an explicit
string, external resolution succeeds, and both version strings are valid
under the version grammar, `test` reaches the comparison and returns `false`
exactly when the internal version is strictly smaller; in exactly that case
the "later version is available" notification — naming the project, the
installed version and the repo version — is emitted, and otherwise no
notification is emitted. -/
theorem test_compare_decides (st st2 : State) (env : Env) (v ev : Str)
    (a b : PepVersion) (e2 : List Effect)
    (hargs : verifyArgs st = Except.ok true)
    (hv : st.vers = some v)
    (hext : getVersionExternal st env = (e2, Except.ok (st2, true)))
    (hev : st2.extvers = some ev)
    (hpa : pep440Parse v = some a)
    (hpb : pep440Parse ev = some b) :
    test st env =
      (e2 ++ (if pepLt a b then [Effect.printWarning (newVersionMsg st.name v ev)] else []),
       st2, !pepLt a b) := by
  obtain ⟨hname, hsrc, hpath, hvers⟩ := getVersionExternal_preserves st env e2 st2 true hext
  have hv2 : st2.vers = some v := by rw [hvers, hv]
  have hint : getVersionInternal st env = ([], st, true) := by
    unfold getVersionInternal
    rw [hv]
  have hvv : verifyVersionNumbers st2 = ([], Except.ok true) := by
    unfold verifyVersionNumbers versionIsValidOpt
    rw [hv2, hev]
    dsimp only
    rw [versionIsValid_of_parse v a hpa, versionIsValid_of_parse ev b hpb]
    rfl
  have hcmp : compareVersions st2 =
      ((if pepLt a b then [Effect.printWarning (newVersionMsg st.name v ev)] else []),
       Except.ok (!pepLt a b)) := by
    unfold compareVersions
    rw [hv2, hev]
    dsimp only
    rw [hpa]
    dsimp only
    rw [hpb]
    dsimp only
    rw [hname]
    by_cases hlt : pepLt a b = true
    · rw [if_pos hlt, hlt]
      rfl
    · rw [if_neg hlt]
      rw [Bool.not_eq_true] at hlt
      rw [hlt]
      rfl
  unfold test
  rw [hargs, hint]
  dsimp only
  rw [hext]
  dsimp only
  rw [hvv]
  dsimp only
  rw [hcmp]
  simp

/-- Witness for C1: on the concrete run the comparison fires, the
notification is printed and `test` returns `false`. -/
theorem test_compare_decides_witness :
    test stC1 envC1 =
      ([Effect.httpGet (str "proj"),
        Effect.printWarning (newVersionMsg (str "proj") (str "1.0") (str "2.0"))],
       stC1ext, false) := by
  have h := test_compare_decides stC1 stC1ext envC1 (str "1.0") (str "2.0")
    ⟨0, [1, 0], none, none, none⟩ ⟨0, [2, 0], none, none, none⟩
    [Effect.httpGet (str "proj")] rfl rfl rfl rfl rfl rfl
  exact h.trans (by decide)

end Gitvck

namespace Gitvck

/-- An unrecognized source makes the argument check raise `RuntimeError`. -/
theorem verifyArgs_invalid_source (st : State) (h : ¬ SOURCES.contains st.src = true) :
    verifyArgs st = Except.error (Exc.runtimeError (invalidSourceMsg st.src)) := by
  unfold verifyArgs
  rw [if_pos h]

/-- A `git` source without a path makes the argument check raise
`RuntimeError`. -/
theorem verifyArgs_missing_path (st : State) (hg : st.src = str "git") (hp : st.path = none) :
    verifyArgs st = Except.error (Exc.runtimeError pathRequiredMsg) := by
  unfold verifyArgs
  rw [if_neg (by simp [hg, SOURCES, str]), if_pos ⟨hg, hp⟩]

/-- When the argument check raises, `test` prints the traceback and returns
`False` with the state untouched. -/
theorem test_of_verify_error (st : State) (env : Env) (ex : Exc)
    (h : verifyArgs st = Except.error ex) :
    test st env = ([Effect.printTrace ex], st, false) := by
  unfold test
  rw [h]

/-- C2: a request whose source kind is unrecognized, or whose kind is `git`
with no location, takes the fatal path: argument verification raises before
any I/O (the whole effect trace is the printed traceback, with no
collaborator interaction), and `test` yields `false`. -/
theorem test_config_error (name source : Str) (path vers : Option Str) (env : Env)
    (h : ¬ SOURCES.contains (lowerStr source) = true ∨
      (lowerStr source = str "git" ∧ path = none)) :
    ∃ msg,
      verifyArgs (mkVersionCheck name source path vers).2 =
          Except.error (Exc.runtimeError msg) ∧
        test (mkVersionCheck name source path vers).2 env =
          ([Effect.printTrace (Exc.runtimeError msg)],
           (mkVersionCheck name source path vers).2, false) := by
  rcases h with h | ⟨hg, hp⟩
  · refine ⟨invalidSourceMsg (lowerStr source), ?_, ?_⟩
    · exact verifyArgs_invalid_source _ h
    · exact test_of_verify_error _ env _ (verifyArgs_invalid_source _ h)
  · refine ⟨pathRequiredMsg, ?_, ?_⟩
    · exact verifyArgs_missing_path _ hg hp
    · exact test_of_verify_error _ env _ (verifyArgs_missing_path _ hg hp)

/-- Witness for C2: the source `svn` is rejected before any I/O, and a `git`
request without a path is rejected before any I/O. -/
theorem test_config_error_witness :
    (∃ msg,
      verifyArgs (mkVersionCheck (str "x") (str "svn") none none).2 =
          Except.error (Exc.runtimeError msg) ∧
        test (mkVersionCheck (str "x") (str "svn") none none).2 envC1 =
          ([Effect.printTrace (Exc.runtimeError msg)],
           (mkVersionCheck (str "x") (str "svn") none none).2, false)) ∧
    (∃ msg,
      verifyArgs (mkVersionCheck (str "x") (str "git") none none).2 =
          Except.error (Exc.runtimeError msg) ∧
        test (mkVersionCheck (str "x") (str "git") none none).2 envC1 =
          ([Effect.printTrace (Exc.runtimeError msg)],
           (mkVersionCheck (str "x") (str "git") none none).2, false)) :=
  ⟨test_config_error (str "x") (str "svn") none none envC1 (Or.inl (by decide)),
   test_config_error (str "x") (str "git") none none envC1 (Or.inr ⟨by decide, rfl⟩)⟩

/-- Local-version resolution never talks to the version-control or registry
collaborators. -/
theorem getVersionInternal_no_external (st : State) (env : Env) :
    ∀ e ∈ (getVersionInternal st env).1, e.isExternalIO = false := by
  unfold getVersionInternal versionIsValid
  repeat' split
  all_goals intro e he
  all_goals simp_all
  all_goals rcases he with rfl | rfl
  all_goals rfl

/-- C7: local-version resolution uses an explicit version directly, without
consulting the metadata collaborator; with no explicit version and the
project not installed, it reports the not-installed error, fails the step
and leaves the version unset (no fallback). -/
theorem getVersionInternal_spec (st : State) (env : Env) :
    (∀ v, st.vers = some v → getVersionInternal st env = ([], st, true)) ∧
      (st.vers = none → env.metadataVersion st.name = none →
        getVersionInternal st env =
          ([Effect.metadataLookup st.name, Effect.printWarning (notInstalledMsg st.name)],
           st, false)) := by
  constructor
  · intro v hv
    unfold getVersionInternal
    rw [hv]
  · intro h1 h2
    unfold getVersionInternal
    rw [h1, h2]

/-- Witness for C7: an explicit version is used with no metadata lookup,
and a missing installation is reported with the step failing. -/
theorem getVersionInternal_spec_witness :
    getVersionInternal stC1 envC1 = ([], stC1, true) ∧
      getVersionInternal stNoVers envC1 =
        ([Effect.metadataLookup (str "proj"),
          Effect.printWarning (notInstalledMsg (str "proj"))], stNoVers, false) :=
  ⟨(getVersionInternal_spec stC1 envC1).1 (str "1.0") rfl,
   (getVersionInternal_spec stNoVers envC1).2 rfl rfl⟩

/-- C8: construction performs no I/O at all — its effect trace is empty and
the state is exactly the stored arguments (with the source lower-cased and
the external version unset). -/
theorem mkVersionCheck_no_io (name source : Str) (path vers : Option Str) :
    mkVersionCheck name source path vers =
      ([], ⟨name, lowerStr source, path, vers, none⟩) := rfl

end Gitvck

namespace Gitvck

/-- The registry collection method always performs exactly the HTTP GET. -/
theorem getVersionFromPypi_effects (st : State) (env : Env) :
    (getVersionFromPypi st env).1 = [Effect.httpGet st.name] := by
  unfold getVersionFromPypi
  repeat' split
  all_goals rfl

/-- The tag collection method's trace starts with the subprocess call. -/
theorem getVersionFromGit_effects (st : State) (env : Env) (p : Str) :
    ∃ t, (getVersionFromGit st env p).1 = Effect.gitCall p :: t := by
  unfold getVersionFromGit
  split
  · exact ⟨[], rfl⟩
  · exact ⟨[Effect.printWarning (gitErrorMsg (env.git p).stderr)], rfl⟩

/-- The unresolved-check only ever appends to the collection trace. -/
theorem checkResolved_effects (eff : List Effect) (r : Except Exc State) :
    ∃ t, (checkResolved eff r).1 = eff ++ t := by
  unfold checkResolved
  repeat' split
  · exact ⟨[], by simp⟩
  · exact ⟨[Effect.printWarning (extNotFoundMsg _)], rfl⟩
  · exact ⟨[], by simp⟩

/-- With a `pypi` source, external resolution is the registry strategy. -/
theorem getVersionExternal_pypi (st : State) (env : Env) (hs : st.src = str "pypi") :
    getVersionExternal st env =
      checkResolved (getVersionFromPypi st env).1 (getVersionFromPypi st env).2 := by
  unfold getVersionExternal
  rw [hs]
  rw [if_neg (by decide), if_pos rfl]

/-- With a `git` source and a path, external resolution is the tag
strategy. -/
theorem getVersionExternal_git (st : State) (env : Env) (p : Str)
    (hs : st.src = str "git") (hp : st.path = some p) :
    getVersionExternal st env =
      checkResolved (getVersionFromGit st env p).1
        (Except.ok (getVersionFromGit st env p).2) := by
  unfold getVersionExternal
  rw [hs, hp]
  rw [if_pos rfl]

/-- C10: source-kind matching is case-insensitive: any source whose
lower-cased form is `git` (given a location) or `pypi` passes argument
verification — construction lower-cases the source before it is compared —
and the matching resolution strategy is dispatched. -/
theorem source_matching_case_insensitive (name source : Str) (path vers : Option Str)
    (env : Env)
    (h1 : SOURCES.contains (lowerStr source) = true)
    (h2 : lowerStr source = str "git" → path ≠ none) :
    verifyArgs (mkVersionCheck name source path vers).2 = Except.ok true ∧
      (mkVersionCheck name source path vers).2.src = lowerStr source ∧
      (∀ p, lowerStr source = str "git" → path = some p →
        (getVersionExternal (mkVersionCheck name source path vers).2 env).1.head? =
          some (Effect.gitCall p)) ∧
      (lowerStr source = str "pypi" →
        (getVersionExternal (mkVersionCheck name source path vers).2 env).1.head? =
          some (Effect.httpGet name)) := by
  have hsrc : (mkVersionCheck name source path vers).2.src = lowerStr source := rfl
  have hpath : (mkVersionCheck name source path vers).2.path = path := rfl
  have hname : (mkVersionCheck name source path vers).2.name = name := rfl
  refine ⟨?_, hsrc, ?_, ?_⟩
  · unfold verifyArgs
    rw [if_neg (by rw [hsrc]; exact not_not_intro h1)]
    rw [if_neg (fun hc => h2 (hsrc ▸ hc.1) (hpath ▸ hc.2))]
  · intro p hg hp
    rw [getVersionExternal_git _ env p (hsrc.trans hg) (hpath.trans hp)]
    obtain ⟨t, ht⟩ :=
      checkResolved_effects (getVersionFromGit (mkVersionCheck name source path vers).2 env p).1
        (Except.ok (getVersionFromGit (mkVersionCheck name source path vers).2 env p).2)
    obtain ⟨t2, ht2⟩ := getVersionFromGit_effects (mkVersionCheck name source path vers).2 env p
    rw [ht, ht2]
    rfl
  · intro hp
    rw [getVersionExternal_pypi _ env (hsrc.trans hp)]
    obtain ⟨t, ht⟩ :=
      checkResolved_effects (getVersionFromPypi (mkVersionCheck name source path vers).2 env).1
        (getVersionFromPypi (mkVersionCheck name source path vers).2 env).2
    rw [ht, getVersionFromPypi_effects _ env, hname]
    rfl

/-- Witness for C10: the upper-cased sources `GIT` (with a path) and `PyPI`
are accepted and dispatched to their strategies. -/
theorem source_matching_case_insensitive_witness :
    (verifyArgs (mkVersionCheck (str "proj") (str "GIT") (some (str "/r")) none).2 =
        Except.ok true ∧
      (mkVersionCheck (str "proj") (str "GIT") (some (str "/r")) none).2.src =
        lowerStr (str "GIT") ∧
      (∀ p, lowerStr (str "GIT") = str "git" → some (str "/r") = some p →
        (getVersionExternal (mkVersionCheck (str "proj") (str "GIT") (some (str "/r")) none).2
            envC1).1.head? = some (Effect.gitCall p)) ∧
      (lowerStr (str "GIT") = str "pypi" →
        (getVersionExternal (mkVersionCheck (str "proj") (str "GIT") (some (str "/r")) none).2
            envC1).1.head? = some (Effect.httpGet (str "proj")))) ∧
    (verifyArgs (mkVersionCheck (str "proj") (str "PyPI") none none).2 = Except.ok true ∧
      (mkVersionCheck (str "proj") (str "PyPI") none none).2.src = lowerStr (str "PyPI") ∧
      (∀ p, lowerStr (str "PyPI") = str "git" → none = some p →
        (getVersionExternal (mkVersionCheck (str "proj") (str "PyPI") none none).2
            envC1).1.head? = some (Effect.gitCall p)) ∧
      (lowerStr (str "PyPI") = str "pypi" →
        (getVersionExternal (mkVersionCheck (str "proj") (str "PyPI") none none).2
            envC1).1.head? = some (Effect.httpGet (str "proj")))) :=
  ⟨source_matching_case_insensitive (str "proj") (str "GIT") (some (str "/r")) none envC1
      (by decide) (fun _ => by simp),
   source_matching_case_insensitive (str "proj") (str "PyPI") none none envC1
      (by decide) (fun h => absurd h (by decide))⟩

end Gitvck

namespace Gitvck

/-- C4: on tag-listing output with at least one non-empty line, the resolved
candidate is exactly the final path segment of the last non-empty line
(whatever the earlier lines hold, and with any leading `v` kept), whereas
the legacy variant's regex strips a leading `v` from its match. -/
theorem parseGitOutput_last_line (st : State) (data : Str) (last : Str)
    (h : (gitLines data).getLast? = some last) :
    (parseGitOutput st data).extvers = some (lastPathSegment last) ∧
      ∀ s : Str, s.contains nl = false →
        legacyFindallHead (str "v" ++ s) = Except.ok s := by
  constructor
  · unfold parseGitOutput
    rw [h]
  · intro s hs
    have hdrop : (str "v" ++ s).drop 1 = s := rfl
    have hpre : (str "v").isPrefixOf (str "v" ++ s) = true := by
      have hv : str "v" = [Char.ofNat 118] := by decide
      rw [hv]
      simp [List.isPrefixOf]
    unfold legacyFindallHead
    rw [if_pos ⟨hpre, by rw [hdrop, hs]; exact Bool.false_ne_true⟩, hdrop]

/-- Witness for C4: the candidate is the last line's final segment with its
leading `v` kept, and the legacy regex strips the `v`. -/
theorem parseGitOutput_last_line_witness :
    (parseGitOutput stC1 dataC4).extvers = some (str "v1.3.0") ∧
      legacyFindallHead (str "v" ++ str "1.3.0") = Except.ok (str "1.3.0") := by
  have h := parseGitOutput_last_line stC1 dataC4 (str "bb refs/tags/v1.3.0") (by decide)
  exact ⟨h.1.trans (by decide), h.2 (str "1.3.0") (by decide)⟩

/-- C3 counterexample: on a network error the registry check does not fail
recoverably — the exception escapes to the top-level handler, which prints a
traceback (not a warning), and `test` returns `true` because the success
flag still holds the previous step's value. -/
theorem pypi_network_error_returns_true :
    test stC1 envNetErr =
      ([Effect.httpGet (str "proj"), Effect.printTrace Exc.requestError], stC1, true) := by
  decide

/-- C3 amended: a non-200 response leaves the external version unresolved
and is a recoverable step failure (warning printed, `test` returns `false`);
but a network error or an unparsable body raises, the top-level handler
prints a traceback instead of a warning, and `test` returns `true` because
the last completed step had succeeded. -/
theorem pypi_failure_modes (st : State) (env : Env) (v : Str)
    (hs : st.src = str "pypi")
    (hv : st.vers = some v)
    (he : st.extvers = none)
    (hargs : verifyArgs st = Except.ok true) :
    (∀ status info, env.pypi st.name = PypiResult.response status info → ¬ status = 200 →
      test st env =
        ([Effect.httpGet st.name, Effect.printWarning (extNotFoundMsg st.name)], st, false)) ∧
      (env.pypi st.name = PypiResult.netError →
        test st env =
          ([Effect.httpGet st.name, Effect.printTrace Exc.requestError], st, true)) ∧
      (env.pypi st.name = PypiResult.response 200 none →
        test st env = ([Effect.httpGet st.name, Effect.printTrace Exc.jsonError], st, true)) := by
  have hint : getVersionInternal st env = ([], st, true) := by
    unfold getVersionInternal
    rw [hv]
  refine ⟨?_, ?_, ?_⟩
  · intro status info hpy hne
    have hfp : getVersionFromPypi st env = ([Effect.httpGet st.name], Except.ok st) := by
      unfold getVersionFromPypi
      rw [hpy]
      dsimp only
      rw [if_neg hne]
    have hx : getVersionExternal st env =
        ([Effect.httpGet st.name, Effect.printWarning (extNotFoundMsg st.name)],
         Except.ok (st, false)) := by
      rw [getVersionExternal_pypi st env hs, hfp]
      simp only [checkResolved]
      rw [he]
      rfl
    unfold test
    rw [hargs, hint]
    dsimp only
    rw [hx]
    rfl
  · intro hpy
    have hfp : getVersionFromPypi st env =
        ([Effect.httpGet st.name], Except.error Exc.requestError) := by
      unfold getVersionFromPypi
      rw [hpy]
    have hx : getVersionExternal st env =
        ([Effect.httpGet st.name], Except.error Exc.requestError) := by
      rw [getVersionExternal_pypi st env hs, hfp]
      rfl
    unfold test
    rw [hargs, hint]
    dsimp only
    rw [hx]
    rfl
  · intro hpy
    have hfp : getVersionFromPypi st env =
        ([Effect.httpGet st.name], Except.error Exc.jsonError) := by
      unfold getVersionFromPypi
      rw [hpy]
      dsimp only
      rw [if_pos rfl]
    have hx : getVersionExternal st env =
        ([Effect.httpGet st.name], Except.error Exc.jsonError) := by
      rw [getVersionExternal_pypi st env hs, hfp]
      rfl
    unfold test
    rw [hargs, hint]
    dsimp only
    rw [hx]
    rfl

/-- Witness for C3 (amended): a 404 answer yields the warning and `false`. -/
theorem pypi_failure_modes_witness :
    test stC1 env404 =
      ([Effect.httpGet (str "proj"), Effect.printWarning (extNotFoundMsg (str "proj"))],
       stC1, false) :=
  (pypi_failure_modes stC1 env404 (str "1.0") rfl rfl rfl rfl).1 404 none rfl (by decide)

end Gitvck

namespace Gitvck

/-- One validation call reports exactly the invalid value, and succeeds
exactly on grammar-valid input. -/
theorem versionIsValid_eq (v : Str) :
    versionIsValid v =
      ((if pep440Valid v then [] else [Effect.printWarning (invalidVersionMsg v)]),
       pep440Valid v) := by
  unfold versionIsValid pep440Valid
  cases h : pep440Parse v <;> simp [h]

/-- C5: the validation step checks the internal and the external version
strings individually — validation of the second is not short-circuited by
the first — so every invalid value is reported with its own message, and
when either is invalid the step fails and `test` returns `false`. -/
theorem test_reports_every_invalid_version (st st2 : State) (env : Env) (v ev : Str)
    (e2 : List Effect)
    (hargs : verifyArgs st = Except.ok true)
    (hv : st.vers = some v)
    (hext : getVersionExternal st env = (e2, Except.ok (st2, true)))
    (hev : st2.extvers = some ev)
    (hbad : pep440Valid v = false ∨ pep440Valid ev = false) :
    test st env =
      (e2 ++ ((if pep440Valid v then [] else [Effect.printWarning (invalidVersionMsg v)]) ++
        (if pep440Valid ev then [] else [Effect.printWarning (invalidVersionMsg ev)])),
       st2, false) := by
  obtain ⟨hname, hsrc, hpath, hvers⟩ := getVersionExternal_preserves st env e2 st2 true hext
  have hv2 : st2.vers = some v := by rw [hvers, hv]
  have hint : getVersionInternal st env = ([], st, true) := by
    unfold getVersionInternal
    rw [hv]
  have hvv : verifyVersionNumbers st2 =
      ((if pep440Valid v then [] else [Effect.printWarning (invalidVersionMsg v)]) ++
        (if pep440Valid ev then [] else [Effect.printWarning (invalidVersionMsg ev)]),
       Except.ok (pep440Valid v && pep440Valid ev)) := by
    unfold verifyVersionNumbers versionIsValidOpt
    rw [hv2, hev]
    dsimp only
    rw [versionIsValid_eq v, versionIsValid_eq ev]
  have hband : (pep440Valid v && pep440Valid ev) = false := by
    rcases hbad with h | h <;> simp [h]
  unfold test
  rw [hargs, hint]
  dsimp only
  rw [hext]
  dsimp only
  rw [hvv]
  dsimp only
  rw [hband]
  simp

/-- Witness for C5: both invalid values are reported, each with its own
message, and `test` returns `false`. -/
theorem test_reports_every_invalid_version_witness :
    test stC5 envC5 =
      ([Effect.httpGet (str "proj"),
        Effect.printWarning (invalidVersionMsg (str "1.abc.1")),
        Effect.printWarning (invalidVersionMsg (str "x"))], stC5ext, false) := by
  have h := test_reports_every_invalid_version stC5 stC5ext envC5 (str "1.abc.1") (str "x")
    [Effect.httpGet (str "proj")] rfl rfl rfl rfl (Or.inl (by decide))
  exact h.trans (by decide)

end Gitvck

namespace Gitvck

/-- The console output of a concatenated trace is the concatenation of the
console outputs. -/
theorem printedMessages_append (a b : List Effect) :
    printedMessages (a ++ b) = printedMessages a ++ printedMessages b := by
  simp [printedMessages]

/-- Local-version resolution only ever writes the `_vers` attribute. -/
theorem getVersionInternal_core (st : State) (env : Env) :
    (getVersionInternal st env).2.1.name = st.name ∧
      (getVersionInternal st env).2.1.src = st.src ∧
      (getVersionInternal st env).2.1.path = st.path ∧
      (getVersionInternal st env).2.1.extvers = st.extvers := by
  unfold getVersionInternal
  repeat' split
  all_goals simp

/-- The argument check reads only the source and the path. -/
theorem verifyArgs_congr (st st1 : State) (hs : st1.src = st.src) (hp : st1.path = st.path) :
    verifyArgs st1 = verifyArgs st := by
  unfold verifyArgs
  rw [hs, hp]

/-- Re-running local-version resolution from the state it produced yields
the same state and flag, and prints the same messages. -/
theorem getVersionInternal_stable (st : State) (env : Env) (e1 : List Effect)
    (st1 : State) (s1 : Bool)
    (h : getVersionInternal st env = (e1, st1, s1)) :
    ∃ e1', getVersionInternal st1 env = (e1', st1, s1) ∧
      printedMessages e1' = printedMessages e1 := by
  unfold getVersionInternal at h
  cases hv : st.vers with
  | some v =>
    rw [hv] at h
    dsimp only at h
    simp only [Prod.mk.injEq] at h
    obtain ⟨rfl, rfl, rfl⟩ := h
    refine ⟨[], ?_, rfl⟩
    unfold getVersionInternal
    rw [hv]
  | none =>
    rw [hv] at h
    dsimp only at h
    cases hm : env.metadataVersion st.name with
    | none =>
      rw [hm] at h
      simp only [Prod.mk.injEq] at h
      obtain ⟨rfl, rfl, rfl⟩ := h
      refine ⟨_, ?_, rfl⟩
      unfold getVersionInternal
      rw [hv, hm]
    | some v =>
      rw [hm] at h
      dsimp only at h
      by_cases hval : (versionIsValid v).2 = true
      · rw [if_pos hval] at h
        simp only [Prod.mk.injEq] at h
        obtain ⟨rfl, rfl, rfl⟩ := h
        have hvalid : pep440Valid v = true := by
          rw [versionIsValid_eq v] at hval
          exact hval
        refine ⟨[], ?_, ?_⟩
        · unfold getVersionInternal
          rfl
        · simp [printedMessages, versionIsValid_eq, hvalid, Effect.isMessage]
      · rw [if_neg hval] at h
        simp only [Prod.mk.injEq] at h
        obtain ⟨rfl, rfl, rfl⟩ := h
        refine ⟨_, ?_, rfl⟩
        unfold getVersionInternal
        rw [hv, hm]
        dsimp only
        rw [if_neg hval]

/-- When local-version resolution succeeds, the version is populated and
nothing was printed. -/
theorem getVersionInternal_true (st : State) (env : Env) (e1 : List Effect) (st1 : State)
    (h : getVersionInternal st env = (e1, st1, true)) :
    st1.vers.isSome = true ∧ printedMessages e1 = [] := by
  unfold getVersionInternal at h
  repeat' split at h
  all_goals simp only [Prod.mk.injEq] at h
  all_goals obtain ⟨rfl, rfl, h3⟩ := h
  all_goals first
    | exact absurd h3.symm (by simp)
    | simp_all [printedMessages, versionIsValid_eq, Effect.isMessage]

/-- Parsing the same tag-listing output twice is idempotent on the state. -/
theorem parseGitOutput_idem (st : State) (d : Str) :
    parseGitOutput (parseGitOutput st d) d = parseGitOutput st d := by
  unfold parseGitOutput
  cases hl : (gitLines d).getLast? <;> simp [hl]

/-- The tag collection's effects do not depend on the checker state, and
re-running it from its own result state reproduces that state. -/
theorem getVersionFromGit_stable (st1 : State) (env : Env) (p : Str) :
    getVersionFromGit ((getVersionFromGit st1 env p).2) env p =
      ((getVersionFromGit st1 env p).1, (getVersionFromGit st1 env p).2) := by
  by_cases hrc : (env.git p).returncode = 0
  · have h1 : getVersionFromGit st1 env p =
        ([Effect.gitCall p], parseGitOutput st1 (env.git p).stdout) := by
      unfold getVersionFromGit
      rw [if_pos hrc]
    rw [h1]
    dsimp only
    unfold getVersionFromGit
    rw [if_pos hrc, parseGitOutput_idem]
  · have h1 : getVersionFromGit st1 env p =
        ([Effect.gitCall p, Effect.printWarning (gitErrorMsg (env.git p).stderr)], st1) := by
      unfold getVersionFromGit
      rw [if_neg hrc]
    rw [h1]
    dsimp only
    rw [h1]

/-- External resolution with an unrecognized source only checks the
already-stored external version. -/
theorem getVersionExternal_other (st : State) (env : Env)
    (h1 : ¬ st.src = str "git") (h2 : ¬ st.src = str "pypi") :
    getVersionExternal st env = checkResolved [] (Except.ok st) := by
  unfold getVersionExternal
  rw [if_neg h1, if_neg h2]

/-- External resolution for `git` without a path raises before any call. -/
theorem getVersionExternal_git_nopath (st : State) (env : Env)
    (hs : st.src = str "git") (hp : st.path = none) :
    getVersionExternal st env = checkResolved [] (Except.error Exc.typeError) := by
  unfold getVersionExternal
  rw [hs, hp]
  rw [if_pos rfl]

/-- Re-running external resolution from the state it produced (under the
same environment) reproduces the same trace, state and flag. -/
theorem getVersionExternal_stable (st1 : State) (env : Env) (e2 : List Effect)
    (st2 : State) (s2 : Bool)
    (h : getVersionExternal st1 env = (e2, Except.ok (st2, s2))) :
    getVersionExternal st2 env = (e2, Except.ok (st2, s2)) := by
  obtain ⟨hn, hs, hp, hv⟩ := getVersionExternal_preserves st1 env e2 st2 s2 h
  by_cases hgit : st1.src = str "git"
  · rcases hpth : st1.path with _ | p
    · rw [getVersionExternal_git_nopath st1 env hgit hpth] at h
      simp [checkResolved] at h
    · rw [getVersionExternal_git st1 env p hgit hpth] at h
      have hst2 : st2 = (getVersionFromGit st1 env p).2 := checkResolved_ok_state _ _ _ _ _ h
      rw [getVersionExternal_git st2 env p (hs.trans hgit) (hp.trans hpth)]
      rw [hst2] at h ⊢
      rw [getVersionFromGit_stable st1 env p]
      exact h
  · by_cases hpypi : st1.src = str "pypi"
    · rw [getVersionExternal_pypi st1 env hpypi] at h
      cases hpy : env.pypi st1.name with
      | netError =>
        have hget : getVersionFromPypi st1 env =
            ([Effect.httpGet st1.name], Except.error Exc.requestError) := by
          unfold getVersionFromPypi
          rw [hpy]
        rw [hget] at h
        simp [checkResolved] at h
      | response status info =>
        by_cases h200 : status = 200
        · subst h200
          cases info with
          | none =>
            have hget : getVersionFromPypi st1 env =
                ([Effect.httpGet st1.name], Except.error Exc.jsonError) := by
              unfold getVersionFromPypi
              rw [hpy]
              dsimp only
              rw [if_pos rfl]
            rw [hget] at h
            simp [checkResolved] at h
          | some v =>
            have hget : getVersionFromPypi st1 env =
                ([Effect.httpGet st1.name],
                 Except.ok ⟨st1.name, st1.src, st1.path, st1.vers, some v⟩) := by
              unfold getVersionFromPypi
              rw [hpy]
              dsimp only
              rw [if_pos rfl]
            rw [hget] at h
            have hst2 : st2 = ⟨st1.name, st1.src, st1.path, st1.vers, some v⟩ :=
              checkResolved_ok_state _ _ _ _ _ h
            rw [getVersionExternal_pypi st2 env (hs.trans hpypi)]
            have hget2 : getVersionFromPypi st2 env =
                ([Effect.httpGet st1.name], Except.ok st2) := by
              unfold getVersionFromPypi
              rw [hn, hpy]
              dsimp only
              rw [if_pos rfl]
              rw [hst2]
            rw [hget2]
            rw [hst2] at h ⊢
            exact h
        · have hget : getVersionFromPypi st1 env =
              ([Effect.httpGet st1.name], Except.ok st1) := by
            unfold getVersionFromPypi
            rw [hpy]
            dsimp only
            rw [if_neg h200]
          rw [hget] at h
          have hst2 : st2 = st1 := checkResolved_ok_state _ _ _ _ _ h
          subst hst2
          rw [getVersionExternal_pypi st2 env hpypi, hget]
          exact h
    · rw [getVersionExternal_other st1 env hgit hpypi] at h
      have hst2 : st2 = st1 := checkResolved_ok_state _ _ _ _ _ h
      subst hst2
      rw [getVersionExternal_other st2 env hgit hpypi]
      exact h

/-- One unfolding step of `test` past the argument check and the internal
resolution. -/
theorem test_step (st : State) (env : Env) (b : Bool) (e1 : List Effect) (st1 : State)
    (s1 : Bool)
    (hva : verifyArgs st = Except.ok b) (hi : getVersionInternal st env = (e1, st1, s1)) :
    test st env =
      (if s1 then
        match getVersionExternal st1 env with
        | (e2, Except.error ex) => (e1 ++ e2 ++ [Effect.printTrace ex], st1, s1)
        | (e2, Except.ok (st2, s2)) =>
          if s2 then
            match verifyVersionNumbers st2 with
            | (e3, Except.error ex) => (e1 ++ e2 ++ e3 ++ [Effect.printTrace ex], st2, s2)
            | (e3, Except.ok s3) =>
              if s3 then
                match compareVersions st2 with
                | (e4, Except.error ex) =>
                  (e1 ++ e2 ++ e3 ++ e4 ++ [Effect.printTrace ex], st2, s3)
                | (e4, Except.ok s4) => (e1 ++ e2 ++ e3 ++ e4, st2, s4)
              else (e1 ++ e2 ++ e3, st2, false)
          else (e1 ++ e2, st2, false)
      else (e1, st1, false)) := by
  unfold test
  rw [hva, hi]

end Gitvck

namespace Gitvck

/-- Reduction of a decided `if` on `true` (the success guard of a step). -/
theorem if_true_eq {α : Sort _} (a b : α) : (if true = true then a else b) = a := rfl

/-- Reduction of a decided `if` on `false` (the failure guard of a step). -/
theorem if_false_eq {α : Sort _} (a b : α) : (if false = true then a else b) = b := rfl

/-- C9: running `test` a second time from the state the first run left
behind, under an unchanged environment, yields the same boolean result and
prints the same messages — the state retained between calls never changes
the outcome. -/
theorem test_idempotent (st : State) (env : Env) :
    (test (test st env).2.1 env).2.2 = (test st env).2.2 ∧
      printedMessages (test (test st env).2.1 env).1 = printedMessages (test st env).1 := by
  rcases hva : verifyArgs st with ex | b
  · have h1 : test st env = ([Effect.printTrace ex], st, false) :=
      test_of_verify_error st env ex hva
    constructor
    · rw [h1]
      dsimp only
      rw [h1]
    · rw [h1]
      dsimp only
      rw [h1]
  · rcases hi : getVersionInternal st env with ⟨e1, st1, s1⟩
    have hcore := getVersionInternal_core st env
    rw [hi] at hcore
    obtain ⟨hn1, hs1, hp1, he1⟩ := hcore
    have hva1 : verifyArgs st1 = Except.ok b := (verifyArgs_congr st st1 hs1 hp1).trans hva
    obtain ⟨e1', hi', hm1⟩ := getVersionInternal_stable st env e1 st1 s1 hi
    have T1 := test_step st env b e1 st1 s1 hva hi
    cases s1 with
    | false =>
      have t1 : test st env = (e1, st1, false) := by rw [T1, if_false_eq]
      have T2 := test_step st1 env b e1' st1 false hva1 hi'
      have t2 : test st1 env = (e1', st1, false) := by rw [T2, if_false_eq]
      rw [t1]
      dsimp only
      rw [t2]
      exact ⟨rfl, hm1⟩
    | true =>
      obtain ⟨hsome, hmsgs0⟩ := getVersionInternal_true st env e1 st1 hi
      have T2a := test_step st1 env b e1' st1 true hva1 hi'
      rcases hx : getVersionExternal st1 env with ⟨e2, r2⟩
      rcases r2 with ex2 | ⟨st2, s2⟩
      · have t1 : test st env = (e1 ++ e2 ++ [Effect.printTrace ex2], st1, true) := by
          rw [T1, if_true_eq, hx]
        have t2 : test st1 env = (e1' ++ e2 ++ [Effect.printTrace ex2], st1, true) := by
          rw [T2a, if_true_eq, hx]
        rw [t1]
        dsimp only
        rw [t2]
        refine ⟨rfl, ?_⟩
        simp only [printedMessages_append, hm1]
      · obtain ⟨hn2, hs2', hp2, hv2⟩ := getVersionExternal_preserves st1 env e2 st2 s2 hx
        have hxs := getVersionExternal_stable st1 env e2 st2 s2 hx
        obtain ⟨v, hv2x⟩ : ∃ v, st2.vers = some v := by
          rw [hv2]
          exact Option.isSome_iff_exists.mp hsome
        have hi2 : getVersionInternal st2 env = ([], st2, true) := by
          unfold getVersionInternal
          rw [hv2x]
        have hva2 : verifyArgs st2 = Except.ok b :=
          (verifyArgs_congr st st2 (hs2'.trans hs1) (hp2.trans hp1)).trans hva
        have T2 := test_step st2 env b [] st2 true hva2 hi2
        cases s2 with
        | false =>
          have t1 : test st env = (e1 ++ e2, st2, false) := by
            rw [T1, if_true_eq, hx]
            dsimp only
            rw [if_false_eq]
          have t2 : test st2 env = ([] ++ e2, st2, false) := by
            rw [T2, if_true_eq, hxs]
            dsimp only
            rw [if_false_eq]
          rw [t1]
          dsimp only
          rw [t2]
          refine ⟨rfl, ?_⟩
          simp only [printedMessages_append, hmsgs0]
          rfl
        | true =>
          rcases hvv : verifyVersionNumbers st2 with ⟨e3, r3⟩
          rcases r3 with ex3 | s3
          · have t1 : test st env = (e1 ++ e2 ++ e3 ++ [Effect.printTrace ex3], st2, true) := by
              rw [T1, if_true_eq, hx]
              dsimp only
              rw [if_true_eq, hvv]
            have t2 : test st2 env = ([] ++ e2 ++ e3 ++ [Effect.printTrace ex3], st2, true) := by
              rw [T2, if_true_eq, hxs]
              dsimp only
              rw [if_true_eq, hvv]
            rw [t1]
            dsimp only
            rw [t2]
            refine ⟨rfl, ?_⟩
            simp only [printedMessages_append, hmsgs0]
            rfl
          · cases s3 with
            | false =>
              have t1 : test st env = (e1 ++ e2 ++ e3, st2, false) := by
                rw [T1, if_true_eq, hx]
                dsimp only
                rw [if_true_eq, hvv]
                dsimp only
                rw [if_false_eq]
              have t2 : test st2 env = ([] ++ e2 ++ e3, st2, false) := by
                rw [T2, if_true_eq, hxs]
                dsimp only
                rw [if_true_eq, hvv]
                dsimp only
                rw [if_false_eq]
              rw [t1]
              dsimp only
              rw [t2]
              refine ⟨rfl, ?_⟩
              simp only [printedMessages_append, hmsgs0]
              rfl
            | true =>
              rcases hcm : compareVersions st2 with ⟨e4, r4⟩
              rcases r4 with ex4 | s4
              · have t1 : test st env =
                    (e1 ++ e2 ++ e3 ++ e4 ++ [Effect.printTrace ex4], st2, true) := by
                  rw [T1, if_true_eq, hx]
                  dsimp only
                  rw [if_true_eq, hvv]
                  dsimp only
                  rw [if_true_eq, hcm]
                have t2 : test st2 env =
                    ([] ++ e2 ++ e3 ++ e4 ++ [Effect.printTrace ex4], st2, true) := by
                  rw [T2, if_true_eq, hxs]
                  dsimp only
                  rw [if_true_eq, hvv]
                  dsimp only
                  rw [if_true_eq, hcm]
                rw [t1]
                dsimp only
                rw [t2]
                refine ⟨rfl, ?_⟩
                simp only [printedMessages_append, hmsgs0]
                rfl
              · have t1 : test st env = (e1 ++ e2 ++ e3 ++ e4, st2, s4) := by
                  rw [T1, if_true_eq, hx]
                  dsimp only
                  rw [if_true_eq, hvv]
                  dsimp only
                  rw [if_true_eq, hcm]
                have t2 : test st2 env = ([] ++ e2 ++ e3 ++ e4, st2, s4) := by
                  rw [T2, if_true_eq, hxs]
                  dsimp only
                  rw [if_true_eq, hvv]
                  dsimp only
                  rw [if_true_eq, hcm]
                rw [t1]
                dsimp only
                rw [t2]
                refine ⟨rfl, ?_⟩
                simp only [printedMessages_append, hmsgs0]
                rfl

end Gitvck

namespace Gitvck

/-- C6 counterexample: a step failure that is not a false success indicator
does not make the result falsy — when the registry body is unparsable, the
external step fails and every later step is skipped (no validation, no
comparison, no notification in the trace), yet `test` returns `true`. -/
theorem pypi_json_error_step_failure_not_falsy :
    test stC1 envJson =
      ([Effect.httpGet (str "proj"), Effect.printTrace Exc.jsonError], stC1, true) := by
  decide

/-- C6 amended: if local-version resolution fails, external resolution is
never attempted (no version-control or registry interaction in the trace);
and every step that returns a false success indicator — the argument check
raising, local resolution failing, external resolution failing to populate
the version, validation failing — ends the pipeline at once with the
overall result `false` and no later step's effects. A step that instead
fails by raising skips the later steps too, but returns the last completed
step's flag. -/
theorem test_short_circuit_on_step_failure (st : State) (env : Env) :
    (∀ ex, verifyArgs st = Except.error ex →
      test st env = ([Effect.printTrace ex], st, false)) ∧
    (∀ b e1 st1, verifyArgs st = Except.ok b →
      getVersionInternal st env = (e1, st1, false) →
      test st env = (e1, st1, false) ∧ ∀ e ∈ e1, e.isExternalIO = false) ∧
    (∀ b e1 st1 e2 st2, verifyArgs st = Except.ok b →
      getVersionInternal st env = (e1, st1, true) →
      getVersionExternal st1 env = (e2, Except.ok (st2, false)) →
      test st env = (e1 ++ e2, st2, false)) ∧
    (∀ b e1 st1 e2 st2 e3, verifyArgs st = Except.ok b →
      getVersionInternal st env = (e1, st1, true) →
      getVersionExternal st1 env = (e2, Except.ok (st2, true)) →
      verifyVersionNumbers st2 = (e3, Except.ok false) →
      test st env = (e1 ++ e2 ++ e3, st2, false)) := by
  refine ⟨?_, ?_, ?_, ?_⟩
  · intro ex hva
    exact test_of_verify_error st env ex hva
  · intro b e1 st1 hva hi
    refine ⟨?_, ?_⟩
    · rw [test_step st env b e1 st1 false hva hi, if_false_eq]
    · have h := getVersionInternal_no_external st env
      rw [hi] at h
      exact h
  · intro b e1 st1 e2 st2 hva hi hx
    rw [test_step st env b e1 st1 true hva hi, if_true_eq, hx]
    dsimp only
    rw [if_false_eq]
  · intro b e1 st1 e2 st2 e3 hva hi hx hvv
    rw [test_step st env b e1 st1 true hva hi, if_true_eq, hx]
    dsimp only
    rw [if_true_eq, hvv]
    dsimp only
    rw [if_false_eq]

/-- Witness for C6 (amended): with the project not installed, `test` stops
after the metadata lookup with no external I/O; with an unresolved registry
version, `test` stops after the registry step with no validation, no
comparison and a `false` result. -/
theorem test_short_circuit_on_step_failure_witness :
    (test stNoVers envC1 =
        ([Effect.metadataLookup (str "proj"),
          Effect.printWarning (notInstalledMsg (str "proj"))], stNoVers, false) ∧
      ∀ e ∈ [Effect.metadataLookup (str "proj"),
          Effect.printWarning (notInstalledMsg (str "proj"))], e.isExternalIO = false) ∧
    test stC1 env404 =
      ([] ++ [Effect.httpGet (str "proj"),
        Effect.printWarning (extNotFoundMsg (str "proj"))], stC1, false) :=
  ⟨(test_short_circuit_on_step_failure stNoVers envC1).2.1 true
      [Effect.metadataLookup (str "proj"),
       Effect.printWarning (notInstalledMsg (str "proj"))] stNoVers rfl rfl,
   (test_short_circuit_on_step_failure stC1 env404).2.2.1 true [] stC1
      [Effect.httpGet (str "proj"), Effect.printWarning (extNotFoundMsg (str "proj"))] stC1
      rfl rfl rfl⟩

end Gitvck
